import Mathlib

/-!
Verification of the Brotherhood community-platform server core.

Shallow embedding of the server source:
  * `src/server/firebase-admin.ts`  — token verification wrapper,
  * `src/server/routes.ts`          — Express route handlers, auth middleware,
                                      WebSocket registry and broadcast,
  * storage layer (`DatabaseStorage`) and the Drizzle schema
    (unique email, composite like key, cascade deletes).

Database state is modelled as explicit lists of rows; every handler is a
pure function from state and request to a new state and a response value.
Timestamps are omitted: no verified property mentions time.  External
collaborators (the Firebase verifier, bcrypt, `JSON.stringify`, the Discord
webhook sink) are modelled as explicit oracles or simple executable
functions satisfying exactly the contract the server relies on.
-/

namespace Brotherhood

/-! ## Identity resolver (`src/server/firebase-admin.ts`) -/

/-- A decoded Firebase ID token: `uid` plus optional `email` claim
(`DecodedIdToken` as used in `routes.ts`). -/
structure DecodedToken where
  uid : String
  email : Option String
deriving DecidableEq, Repr

/-- `firebase-admin.ts` module state: `adminApp` is `null` when
`VITE_FIREBASE_PROJECT_ID` is unset.  When present, the app carries the
identity provider's verification behaviour as an oracle
`String → Option DecodedToken` (errors inside `auth.verifyIdToken` are
caught in the source and folded into `none`). -/
structure FirebaseAdmin where
  adminApp : Option (String → Option DecodedToken)

/-- `isFirebaseAdminInitialized` from `firebase-admin.ts`: `adminApp !== null`. -/
def isFirebaseAdminInitialized (fa : FirebaseAdmin) : Bool :=
  fa.adminApp.isSome

/-- `verifyIdToken` from `firebase-admin.ts`: returns `null` when the admin
app is missing, otherwise the provider's verdict (its internal try/catch
returns `null` on error, already folded into the oracle's `none`). -/
def verifyIdToken (fa : FirebaseAdmin) (idToken : String) : Option DecodedToken :=
  match fa.adminApp with
  | none => none
  | some auth => auth idToken

/-! ## Auth middleware (`src/server/routes.ts` lines 71–120) -/

/-- JavaScript truthiness of an optional header/body string:
`undefined` and `""` are falsy. -/
def truthy : Option String → Bool
  | none => false
  | some s => !(s == "")

/-- The incoming headers the middleware reads: `authorization` and
`x-user-id`. -/
structure ApiRequest where
  authorization : Option String
  xUserId : Option String
deriving DecidableEq, Repr

/-- `authHeader.split("Bearer ")[1]` — JavaScript `split` on every
occurrence of the separator, index 1, `undefined` (modelled `""`) when
absent. -/
def bearerToken (h : String) : String :=
  (h.splitOn "Bearer ").getD 1 ""

/-- Outcome of the middleware: `next` with the request's `userId`
and `userEmail` fields set, or a 401 response with the given message. -/
inductive AuthOutcome where
  | next (userId : String) (userEmail : Option String)
  | unauthorized (msg : String)
deriving DecidableEq, Repr

/-- `authMiddleware` from `routes.ts` (lines 71–120).  The `catch` branch
of the source is unreachable here because `verifyIdToken` never throws
(its body is wrapped in try/catch returning `null`). -/
def authMiddleware (fa : FirebaseAdmin) (req : ApiRequest) : AuthOutcome :=
  if req.authorization == some "Bearer test-token-dev" && truthy req.xUserId then
    .next (req.xUserId.getD "") none
  else if !(truthy req.authorization && (req.authorization.getD "").startsWith "Bearer ") then
    if truthy req.xUserId && !(isFirebaseAdminInitialized fa) then
      .next (req.xUserId.getD "") none
    else
      .unauthorized "Unauthorized - No token provided"
  else
    match verifyIdToken fa (bearerToken (req.authorization.getD "")) with
    | some decoded => .next decoded.uid decoded.email
    | none =>
      if !(isFirebaseAdminInitialized fa) && truthy req.xUserId then
        .next (req.xUserId.getD "") none
      else
        .unauthorized "Unauthorized - Invalid token"

/-- A configured admin instance whose provider rejects every token:
used to exhibit the development backdoor. -/
def faReject : FirebaseAdmin := ⟨some (fun _ => none)⟩

/-- A configured admin instance accepting exactly the token `"good"`. -/
def faGood : FirebaseAdmin :=
  ⟨some (fun t => if t == "good" then some ⟨"alice", some "alice@example.com"⟩ else none)⟩

/-- C1 counterexample: with Firebase Admin initialized and a provider that
verifies no token at all, the request
`Authorization: Bearer test-token-dev`, `X-User-Id: mallory` is still
authenticated as `mallory` — the development test-token branch runs before
any verification, so a caller-supplied identity header does yield an
authenticated actor in the configured deployment. -/
theorem authMiddleware_test_token_bypasses_verifier :
    isFirebaseAdminInitialized faReject = true ∧
    verifyIdToken faReject "test-token-dev" = none ∧
    authMiddleware faReject ⟨some "Bearer test-token-dev", some "mallory"⟩ =
      .next "mallory" none := by
  refine ⟨rfl, rfl, ?_⟩
  rfl

/-- C1 (amended): when Firebase Admin is initialized, apart from the
development test-token backdoor (`Authorization: Bearer test-token-dev`
together with a truthy `X-User-Id`), the middleware authenticates a request
only if the bearer token verifies: every `next` outcome carries the uid and
email of a successfully verified token, and whenever the extracted bearer
token does not verify the middleware responds 401 and the handler never
runs.  In particular the `X-User-Id` header alone never authenticates. -/
theorem authMiddleware_verified_only (fa : FirebaseAdmin) (req : ApiRequest)
    (hinit : isFirebaseAdminInitialized fa = true)
    (hdev : ¬(req.authorization = some "Bearer test-token-dev" ∧ truthy req.xUserId = true)) :
    (∀ uid em, authMiddleware fa req = .next uid em →
      ∃ d, verifyIdToken fa (bearerToken (req.authorization.getD "")) = some d ∧
        uid = d.uid ∧ em = d.email) ∧
    (verifyIdToken fa (bearerToken (req.authorization.getD "")) = none →
      ∃ msg, authMiddleware fa req = .unauthorized msg) := by
  have hdev2 : (req.authorization == some "Bearer test-token-dev" && truthy req.xUserId) = false := by
    cases hq : req.authorization == some "Bearer test-token-dev"
    · simp
    · cases ht : truthy req.xUserId
      · simp
      · exact absurd ⟨eq_of_beq hq, ht⟩ hdev
  constructor
  · intro uid em hnext
    unfold authMiddleware at hnext
    split at hnext
    · rename_i hcond
      rw [hdev2] at hcond
      exact absurd hcond (by simp)
    · split at hnext
      · split at hnext
        · rename_i hfall
          rw [hinit] at hfall
          simp at hfall
        · exact absurd hnext (by simp)
      · split at hnext
        · rename_i d hd
          simp only [AuthOutcome.next.injEq] at hnext
          exact ⟨d, hd, hnext.1.symm, hnext.2.symm⟩
        · split at hnext
          · rename_i hfall
            rw [hinit] at hfall
            simp at hfall
          · exact absurd hnext (by simp)
  · intro hv
    unfold authMiddleware
    split
    · rename_i hcond
      rw [hdev2] at hcond
      exact absurd hcond (by simp)
    · split
      · split
        · rename_i hfall
          rw [hinit] at hfall
          simp at hfall
        · exact ⟨_, rfl⟩
      · split
        · rename_i d hd
          rw [hv] at hd
          cases hd
        · split
          · rename_i hfall
            rw [hinit] at hfall
            simp at hfall
          · exact ⟨_, rfl⟩

/-- C1 witness: concrete instantiation of the amended theorem — with the
all-rejecting configured verifier, a request carrying an unverifiable
bearer token (and no test token) is rejected with a 401 message. -/
theorem authMiddleware_verified_only_witness :
    isFirebaseAdminInitialized faReject = true ∧
    ∃ msg, authMiddleware faReject ⟨some "Bearer forged", some "mallory"⟩ = .unauthorized msg :=
  ⟨rfl, (authMiddleware_verified_only faReject ⟨some "Bearer forged", some "mallory"⟩
    rfl (by intro h; exact absurd h.1 (by decide))).2 rfl⟩

/-! ## Content store: rows and database state

Row shapes follow the shared Drizzle schema (`users`, `posts`, `comments`,
`likes`, `chatMessages`, `appSettings`).  `createdAt` timestamps are
omitted (no verified property mentions them); the posts `title` column
appears because the routes pass it; `fileAttachmentIds` and the
direct-message / uploaded-file tables are outside the verified claims and
are omitted. -/

structure User where
  id : String
  email : String
  displayName : String
  photoURL : Option String
  isOwner : Bool
  hasAdminAccess : Bool
  role : Option String
deriving DecidableEq, Repr

structure Post where
  id : Nat
  content : String
  title : Option String
  authorId : String
  isAdminPost : Bool
deriving DecidableEq, Repr

structure Comment where
  id : Nat
  content : String
  postId : Nat
  authorId : String
deriving DecidableEq, Repr

structure Like where
  postId : Nat
  userId : String
deriving DecidableEq, Repr

structure ChatMessage where
  id : Nat
  content : String
  authorId : String
deriving DecidableEq, Repr

structure AppSetting where
  key : String
  value : String
deriving DecidableEq, Repr

/-- The relational state, one list per table, plus the identity counters
feeding `generatedAlwaysAsIdentity` columns. -/
structure DB where
  users : List User
  posts : List Post
  comments : List Comment
  likes : List Like
  chatMessages : List ChatMessage
  settings : List AppSetting
  nextPostId : Nat
  nextCommentId : Nat
  nextChatMessageId : Nat
deriving DecidableEq, Repr

/-! ## Storage layer (`DatabaseStorage`) -/

/-- `getUser`: `select ... where eq(users.id, id)`, first row or none. -/
def getUser (db : DB) (id : String) : Option User :=
  db.users.find? (fun u => u.id == id)

/-- Fields of `InsertUser` as the sync route supplies them (`hasAdminAccess`
and `role` take their column defaults `false` / `null`). -/
structure InsertUser where
  id : String
  email : String
  displayName : String
  photoURL : Option String
  isOwner : Bool
deriving DecidableEq, Repr

/-- JavaScript `toLowerCase()` (ASCII case mapping — all strings the
verified properties compare are ASCII). -/
def lowerString (s : String) : String :=
  String.mk (s.data.map Char.toLower)

/-- JavaScript `String.prototype.trim()`: strip leading and trailing
whitespace. -/
def trimString (s : String) : String :=
  String.mk (((s.data.dropWhile Char.isWhitespace).reverse.dropWhile
    Char.isWhitespace).reverse)

/-- `createUser`: inserts with the email lower-cased.  The insert fails
(`none`, surfacing as a thrown constraint violation in the source) when the
primary key `id` or the unique `email` column is already taken. -/
def createUser (db : DB) (ins : InsertUser) : Option (DB × User) :=
  if db.users.any (fun u => u.id == ins.id) ||
     db.users.any (fun u => u.email == lowerString ins.email) then
    none
  else
    some ({ db with users := db.users ++
            [{ id := ins.id, email := lowerString ins.email, displayName := ins.displayName,
               photoURL := ins.photoURL, isOwner := ins.isOwner,
               hasAdminAccess := false, role := none }] },
          { id := ins.id, email := lowerString ins.email, displayName := ins.displayName,
            photoURL := ins.photoURL, isOwner := ins.isOwner,
            hasAdminAccess := false, role := none })

/-- A `Partial<InsertUser>` patch for `updateUser`: `none` fields are
absent from the `set` clause and leave the column untouched. -/
structure UserUpdate where
  email : Option String
  displayName : Option String
  photoURL : Option (Option String)
  isOwner : Option Bool
  hasAdminAccess : Option Bool
  role : Option (Option String)
deriving DecidableEq, Repr

/-- The empty patch. -/
def UserUpdate.none' : UserUpdate := ⟨none, none, none, none, none, none⟩

def applyUserUpdate (u : User) (d : UserUpdate) : User :=
  { u with
    email := d.email.getD u.email,
    displayName := d.displayName.getD u.displayName,
    photoURL := d.photoURL.getD u.photoURL,
    isOwner := d.isOwner.getD u.isOwner,
    hasAdminAccess := d.hasAdminAccess.getD u.hasAdminAccess,
    role := d.role.getD u.role }

/-- `updateUser`: `update ... set(data) where eq(users.id, id) returning`;
yields the updated row, or `none` with the state unchanged when no row
matches. -/
def updateUser (db : DB) (id : String) (d : UserUpdate) : DB × Option User :=
  match db.users.find? (fun u => u.id == id) with
  | none => (db, none)
  | some u =>
    let u2 := applyUserUpdate u d
    ({ db with users := db.users.map (fun v => if v.id == id then u2 else v) }, some u2)

/-- `grantRole`: `set { role } where eq(users.id, userId) returning`. -/
def grantRole (db : DB) (userId : String) (role : String) : DB × Option User :=
  updateUser db userId { UserUpdate.none' with role := some (some role) }

/-- `revokeRole`: `set { role: null } where eq(users.id, userId) returning`. -/
def revokeRole (db : DB) (userId : String) : DB × Option User :=
  updateUser db userId { UserUpdate.none' with role := some none }

/-- Fields of `InsertPost` as the create-post route supplies them. -/
structure InsertPost where
  content : String
  title : Option String
  authorId : String
  isAdminPost : Bool
deriving DecidableEq, Repr

/-- `createPost`: insert returning the new row; the generated id comes from
the identity counter.  Fails (`none` = thrown foreign-key violation) when
`authorId` references no user. -/
def createPost (db : DB) (p : InsertPost) : Option (DB × Post) :=
  if db.users.any (fun u => u.id == p.authorId) then
    some ({ db with
            posts := db.posts ++ [⟨db.nextPostId, p.content, p.title, p.authorId, p.isAdminPost⟩]
            nextPostId := db.nextPostId + 1 },
          ⟨db.nextPostId, p.content, p.title, p.authorId, p.isAdminPost⟩)
  else
    none

/-- `getPost` (row part only): first post with the given id. -/
def getPost (db : DB) (id : Nat) : Option Post :=
  db.posts.find? (fun p => p.id == id)

/-- `deletePost`: `delete from posts where eq(posts.id, id)`.  The schema
declares `comments.postId` and `likes.postId` with `onDelete: "cascade"`,
so the database also removes every comment and like referencing the
deleted post. -/
def deletePost (db : DB) (id : Nat) : DB :=
  { db with
    posts := db.posts.filter (fun p => !(p.id == id)),
    comments := db.comments.filter (fun c => !(c.postId == id)),
    likes := db.likes.filter (fun l => !(l.postId == id)) }

/-- Fields of `InsertComment`. -/
structure InsertComment where
  content : String
  postId : Nat
  authorId : String
deriving DecidableEq, Repr

/-- `createComment`: insert returning; fails on a dangling post or author
reference. -/
def createComment (db : DB) (c : InsertComment) : Option (DB × Comment) :=
  if db.posts.any (fun p => p.id == c.postId) && db.users.any (fun u => u.id == c.authorId) then
    some ({ db with
            comments := db.comments ++ [⟨db.nextCommentId, c.content, c.postId, c.authorId⟩]
            nextCommentId := db.nextCommentId + 1 },
          ⟨db.nextCommentId, c.content, c.postId, c.authorId⟩)
  else
    none

/-- `deleteComment`: `delete from comments where eq(comments.id, id)` —
touches no other table. -/
def deleteComment (db : DB) (id : Nat) : DB :=
  { db with comments := db.comments.filter (fun c => !(c.id == id)) }

/-- Whether the like row for this (post, user) pair matches `l`; the
`likes` table has exactly these two columns, so matching is equality. -/
def likeMatches (l : Like) (x : Like) : Bool :=
  x.postId == l.postId && x.userId == l.userId

/-- `toggleLike`: select the existing row for the composite key; if found,
delete it and report `false` (unliked); otherwise insert and report `true`
(liked).  The insert fails (`none` = thrown foreign-key violation) when the
post or user reference dangles. -/
def toggleLike (db : DB) (l : Like) : Option (DB × Bool) :=
  match db.likes.find? (likeMatches l) with
  | some _ =>
    some ({ db with likes := db.likes.filter (fun x => !(likeMatches l x)) }, false)
  | none =>
    if db.posts.any (fun p => p.id == l.postId) && db.users.any (fun u => u.id == l.userId) then
      some ({ db with likes := db.likes ++ [l] }, true)
    else
      none

/-- Fields of `InsertChatMessage` as the chat route supplies them. -/
structure InsertChatMessage where
  content : String
  authorId : String
deriving DecidableEq, Repr

/-- `createChatMessage`: insert returning; fails on a dangling author
reference. -/
def createChatMessage (db : DB) (m : InsertChatMessage) : Option (DB × ChatMessage) :=
  if db.users.any (fun u => u.id == m.authorId) then
    some ({ db with
            chatMessages := db.chatMessages ++ [⟨db.nextChatMessageId, m.content, m.authorId⟩]
            nextChatMessageId := db.nextChatMessageId + 1 },
          ⟨db.nextChatMessageId, m.content, m.authorId⟩)
  else
    none

/-- `getSetting`: value of the row with the given key, if any. -/
def getSetting (db : DB) (key : String) : Option String :=
  (db.settings.find? (fun s => s.key == key)).map (fun s => s.value)

/-- `setSetting`: insert with `onConflictDoUpdate` on the key — upsert. -/
def setSetting (db : DB) (key value : String) : DB :=
  if db.settings.any (fun s => s.key == key) then
    { db with settings := db.settings.map (fun s => if s.key == key then ⟨key, value⟩ else s) }
  else
    { db with settings := db.settings ++ [⟨key, value⟩] }

/-! ## External collaborators: bcrypt and serialization -/

/-- The bcrypt library, modelled by its contract as the server uses it:
`bcrypt.hash` yields a non-empty digest and `bcrypt.compare p h` holds
exactly when `h` was produced by hashing `p`. -/
def bcryptHash (password : String) : String :=
  "$2b$10$" ++ password

/-- `bcrypt.compare`: true iff the hash was produced from this password. -/
def bcryptCompare (password hashed : String) : Bool :=
  hashed == bcryptHash password

/-- `JSON.stringify({ type: "chat_message", message })`, modelled as an
abstract injective serialization; only the facts that it is computed once
per broadcast and is identical for every recipient are used. -/
def serializeChatEvent (m : ChatMessage) : String :=
  "chat_message:" ++ toString m.id ++ ":" ++ m.authorId ++ ":" ++ m.content

/-! ## Route handlers (`registerRoutes` in `src/server/routes.ts`)

Each handler is a pure function from database state and request data to
the new state and response.  Handlers whose claims involve the Discord
relay additionally return an ordered trace of observable effects; the
relay's delivery outcome is an oracle argument `whOutcome`.  Routes behind
`authMiddleware` take the resolved `userId` directly. -/

/-- Observable effects of a handler, in execution order.  A
`webhookAttempt` entry records a *completed* `sendDiscordWebhook` call
(the source `await`s it) together with the delivery outcome. -/
inductive Effect where
  | storedPost (p : Post)
  | storedChat (m : ChatMessage)
  | webhookAttempt (url : String) (delivered : Bool)
  | broadcasted (data : String)
  | responded (status : Nat)
deriving DecidableEq, Repr

/-- `sendDiscordWebhook` (routes.ts lines 33–58): empty URL is a warned
no-op; otherwise one POST whose failure (network error or non-2xx) is
logged and swallowed — the function always returns normally, which is why
its result type carries no error. -/
def sendDiscordWebhook (webhookUrl : String) (outcome : Bool) : List Effect :=
  if webhookUrl == "" then []
  else [.webhookAttempt webhookUrl outcome]

/-- The owner allow-list check of `/api/auth/sync`:
`email?.toLowerCase()` against the two fixed addresses. -/
def isOwnerEmail (email : String) : Bool :=
  lowerString email == "thebrotherhoodofalaska@outlook.com" ||
  lowerString email == "2thumbsupgames@gmail.com"

/-- Body of `POST /api/auth/sync`; absent fields are modelled as `""`
(`undefined` and `""` take the same falsy branch in the source). -/
structure SyncBody where
  id : String
  email : String
  displayName : String
  photoURL : Option String
deriving DecidableEq, Repr

inductive SyncResult where
  | ok (user : User)
  | badRequest
  | serverError
deriving DecidableEq, Repr

/-- `POST /api/auth/sync` (routes.ts lines 202–238): no auth middleware.
Missing fields → 400; otherwise `isOwner` is recomputed from the supplied
email and the user row is created (new id) or patched
(`displayName`/`photoURL`/`isOwner` — the stored email is not updated).
A storage constraint violation is caught by the handler's try/catch → 500. -/
def authSync (db : DB) (b : SyncBody) : DB × SyncResult :=
  if b.id == "" || b.email == "" || b.displayName == "" then
    (db, .badRequest)
  else
    match getUser db b.id with
    | none =>
      match createUser db ⟨b.id, b.email, b.displayName, b.photoURL, isOwnerEmail b.email⟩ with
      | some (db2, u) => (db2, .ok u)
      | none => (db, .serverError)
    | some u =>
      match updateUser db b.id { UserUpdate.none' with
          displayName := some b.displayName
          photoURL := b.photoURL.map some
          isOwner := some (isOwnerEmail b.email) } with
      | (db2, some u2) => (db2, .ok u2)
      | (db2, none) => (db2, .ok u)

/-- `user?.isOwner || user?.hasAdminAccess` for the resolved actor — the
admin gate shared by create-admin-post, grant/revoke role and
delete-chat-message uses `hasAdminAccess` only where the source does. -/
def actorHasAdmin (db : DB) (userId : String) : Bool :=
  match getUser db userId with
  | some u => u.isOwner || u.hasAdminAccess
  | none => false

/-- Body of `POST /api/posts`. -/
structure CreatePostBody where
  content : String
  isAdminPost : Bool
  title : Option String
deriving DecidableEq, Repr

inductive PostResult where
  | ok (post : Post)
  | badRequest
  | forbidden
  | serverError
deriving DecidableEq, Repr

/-- `POST /api/posts` (routes.ts lines 265–324): empty trimmed content →
400; an admin post by an actor with neither `isOwner` nor
`hasAdminAccess` → 403 before any insert; otherwise the post is inserted
and, when the matching webhook URL is configured and the author row
exists, the Discord relay is awaited before the 200 response. -/
def createPostRoute (db : DB) (userId : String) (b : CreatePostBody) (whOutcome : Bool) :
    DB × PostResult × List Effect :=
  if trimString b.content == "" then (db, .badRequest, [.responded 400])
  else if b.isAdminPost && !(actorHasAdmin db userId) then
    (db, .forbidden, [.responded 403])
  else
    match createPost db ⟨trimString b.content,
        (if b.isAdminPost && truthy b.title then some (trimString (b.title.getD "")) else none),
        userId, b.isAdminPost⟩ with
    | none => (db, .serverError, [.responded 500])
    | some (db2, post) =>
      (db2, .ok post, [.storedPost post] ++
        (if !((getSetting db2 (if b.isAdminPost then "discord_announcements_webhook"
                               else "discord_feed_webhook")).getD "" == "") &&
            (getUser db2 userId).isSome
         then sendDiscordWebhook ((getSetting db2 (if b.isAdminPost
                then "discord_announcements_webhook"
                else "discord_feed_webhook")).getD "") whOutcome
         else []) ++ [.responded 200])

/-- Body of `POST /api/chat`. -/
structure ChatBody where
  content : String
deriving DecidableEq, Repr

inductive ChatResult where
  | ok (m : ChatMessage)
  | badRequest
  | serverError
deriving DecidableEq, Repr

/-- `POST /api/chat` (routes.ts lines 492–527): store the trimmed message,
`await` the Discord relay when configured, then broadcast to every
WebSocket client and answer 200 with the stored row. -/
def chatRoute (db : DB) (userId : String) (b : ChatBody) (whOutcome : Bool) :
    DB × ChatResult × List Effect :=
  if trimString b.content == "" then (db, .badRequest, [.responded 400])
  else
    match createChatMessage db ⟨trimString b.content, userId⟩ with
    | none => (db, .serverError, [.responded 500])
    | some (db2, m) =>
      (db2, .ok m, [.storedChat m] ++
        (if !((getSetting db2 "discord_chat_webhook").getD "" == "") &&
            (getUser db2 userId).isSome
         then sendDiscordWebhook ((getSetting db2 "discord_chat_webhook").getD "") whOutcome
         else []) ++
        [.broadcasted (serializeChatEvent m), .responded 200])

inductive SimpleResult where
  | success
  | badRequest (msg : String)
  | unauthorized
  | forbidden
deriving DecidableEq, Repr

/-- `POST /api/admin/set-password` (routes.ts lines 605–627): owner only;
password of fewer than 4 characters → 400; otherwise the bcrypt hash is
upserted under the `admin_password` key. -/
def setPasswordRoute (db : DB) (userId : String) (password : String) : DB × SimpleResult :=
  match getUser db userId with
  | some u =>
    if u.isOwner then
      if password == "" || password.length < 4 then
        (db, .badRequest "Password must be at least 4 characters")
      else
        (setSetting db "admin_password" (bcryptHash password), .success)
    else (db, .forbidden)
  | none => (db, .forbidden)

/-- `POST /api/admin/unlock` (routes.ts lines 630–657): any authenticated
actor; missing password → 400, unset stored password → 400, bcrypt
mismatch → 401 with no state change, match → the actor's
`hasAdminAccess` is set to true. -/
def unlockRoute (db : DB) (userId : String) (password : String) : DB × SimpleResult :=
  if password == "" then (db, .badRequest "Password required")
  else
    match getSetting db "admin_password" with
    | none => (db, .badRequest "Admin password not set")
    | some stored =>
      if stored == "" then (db, .badRequest "Admin password not set")
      else if !(bcryptCompare password stored) then (db, .unauthorized)
      else ((updateUser db userId { UserUpdate.none' with hasAdminAccess := some true }).1,
            .success)

inductive RoleResult where
  | ok (user : User)
  | forbidden
  | notFound
deriving DecidableEq, Repr

/-- `POST /api/users/:userId/role` (routes.ts lines 434–455): actor needs
`isOwner` or `hasAdminAccess`; the body's `role` string is stored as-is. -/
def grantRoleRoute (db : DB) (actorId targetId role : String) : DB × RoleResult :=
  if !(actorHasAdmin db actorId) then (db, .forbidden)
  else
    match grantRole db targetId role with
    | (db2, some u) => (db2, .ok u)
    | (db2, none) => (db2, .notFound)

/-- `DELETE /api/users/:userId/role` (routes.ts lines 458–478). -/
def revokeRoleRoute (db : DB) (actorId targetId : String) : DB × RoleResult :=
  if !(actorHasAdmin db actorId) then (db, .forbidden)
  else
    match revokeRole db targetId with
    | (db2, some u) => (db2, .ok u)
    | (db2, none) => (db2, .notFound)

/-- The named ranks appearing in the source (`getRoleColor` /
`getRoleAnsiColor` and the schema comment). -/
def namedRanks : List String :=
  ["Supreme Leader", "The Council of Snow", "The Great Hall of the North", "admin"]

/-! ## Connection registry and broadcaster (routes.ts lines 158–199) -/

/-- `ws.readyState` values. -/
inductive ReadyState where
  | CONNECTING
  | OPEN
  | CLOSING
  | CLOSED
deriving DecidableEq, Repr

/-- One entry of the `clients : Map<WebSocket, string>` registry.
`userId = ""` is the unauthenticated (CONNECTED) state set on connection;
a non-empty `userId` means AUTHENTICATED.  `sendFails` is the transport
oracle for `ws.send` on this socket. -/
structure Client where
  connId : Nat
  userId : String
  readyState : ReadyState
  sendFails : Bool
deriving DecidableEq, Repr

/-- The outcome of one `client.send(data)` call. -/
structure Delivery where
  connId : Nat
  data : String
  delivered : Bool
deriving DecidableEq, Repr

/-- `wss.on('connection')`: `clients.set(ws, '')` — a fresh entry with
empty identity and an open socket. -/
def onConnection (clients : List Client) (connId : Nat) (sendFails : Bool) : List Client :=
  clients ++ [⟨connId, "", .OPEN, sendFails⟩]

/-- Successful auth handshake: `clients.set(ws, uid)`. -/
def authenticateClient (clients : List Client) (connId : Nat) (uid : String) : List Client :=
  clients.map (fun c => if c.connId == connId then { c with userId := uid } else c)

/-- `ws.on('close')`: `clients.delete(ws)`. -/
def onClose (clients : List Client) (connId : Nat) : List Client :=
  clients.filter (fun c => !(c.connId == connId))

/-- `broadcast` (routes.ts lines 192–199): serialize once, then for every
registry entry with an OPEN socket attempt one send; each send's outcome
is recorded independently and no outcome interrupts the iteration. -/
def broadcastData (clients : List Client) (data : String) : List Delivery :=
  clients.foldr
    (fun c acc =>
      if c.readyState == .OPEN then ⟨c.connId, data, !c.sendFails⟩ :: acc else acc)
    []

/-- `broadcast({ type: "chat_message", message })`. -/
def broadcast (clients : List Client) (m : ChatMessage) : List Delivery :=
  broadcastData clients (serializeChatEvent m)

/-! ## Helper lemmas -/

/-- A `find?` hit makes `any` true. -/
theorem any_of_find (p : α → Bool) (l : List α) (u : α) (h : l.find? p = some u) :
    l.any p = true :=
  List.any_eq_true.mpr ⟨u, List.mem_of_find?_eq_some h, List.find?_some h⟩

/-- `any` true yields a `find?` hit. -/
theorem find_of_any (p : α → Bool) (l : List α) (h : l.any p = true) :
    ∃ u, l.find? p = some u := by
  rcases List.any_eq_true.mp h with ⟨x, hx, hpx⟩
  rcases Option.isSome_iff_exists.mp (List.find?_isSome.mpr ⟨x, hx, hpx⟩) with ⟨u, hu⟩
  exact ⟨u, hu⟩

/-- After rewriting every `p`-row to `w` (with `p w` holding), `find? p`
returns `w` provided it previously returned anything. -/
theorem find_update_eq (p : α → Bool) (w : α) (hw : p w = true) :
    ∀ (l : List α) (u : α), l.find? p = some u →
      (l.map (fun v => if p v then w else v)).find? p = some w := by
  intro l
  induction l with
  | nil => intro u h; simp [List.find?] at h
  | cons a t ih =>
    intro u h
    by_cases hp : p a = true
    · simp [List.find?_cons, hp, hw]
    · rw [List.find?_cons_of_neg _ (by simp [hp])] at h
      simpa [List.map_cons, List.find?_cons, hp] using ih u h

/-- Rows not matching `p` are untouched by the rewrite map. -/
theorem mem_map_update_of_not (p : α → Bool) (w : α) (l : List α) (v : α)
    (hv : v ∈ l) (hp : p v = false) :
    v ∈ l.map (fun x => if p x then w else x) := by
  have : v = (fun x => if p x then w else x) v := by simp [hp]
  rw [this]
  exact List.mem_map_of_mem _ hv

/-- `getSetting` after `setSetting` of the same key returns the new value. -/
theorem getSetting_setSetting_self (db : DB) (k v : String) :
    getSetting (setSetting db k v) k = some v := by
  unfold setSetting getSetting
  by_cases h : db.settings.any (fun s => s.key == k) = true
  · rw [if_pos h]
    rcases find_of_any _ _ h with ⟨u, hu⟩
    rw [find_update_eq (fun s => s.key == k) ⟨k, v⟩ (by simp) _ u hu]
    rfl
  · rw [if_neg h]
    have hnone : db.settings.find? (fun s => s.key == k) = none := by
      rw [List.find?_eq_none]
      intro x hx
      exact (List.any_eq_false.mp (Bool.eq_false_iff.mpr h)) x hx
    simp [List.find?_append, hnone, List.find?_cons]

/-- Appending a fresh string to a fixed one is injective
(`bcryptCompare p (bcryptHash q)` holds only for `p = q`). -/
theorem string_append_left_cancel (s p q : String) (h : s ++ p = s ++ q) : p = q := by
  have hd := congrArg String.data h
  simp only [String.data_append] at hd
  exact String.ext (List.append_cancel_left hd)

/-- Concrete fixtures used by witnesses and counterexamples. -/
def ownerUser : User :=
  ⟨"owner1", "2thumbsupgames@gmail.com", "Owner", none, true, false, none⟩

def bobUser : User :=
  ⟨"bob", "bob@example.com", "Bob", none, false, false, none⟩

def evilUser : User :=
  ⟨"u1", "evil@example.com", "Evil", none, false, false, none⟩

def db0 : DB := ⟨[ownerUser, bobUser], [], [], [], [], [], 1, 1, 1⟩

def dbEvil : DB := ⟨[evilUser], [], [], [], [], [], 1, 1, 1⟩

/-! ## C2 — unauthenticated user sync -/

/-- C2 counterexample: `/api/auth/sync` does not always create the row the
body names.  With the real owner's email already stored, a body with a
fresh id and that same (differently-cased) email hits the unique-email
constraint: the handler answers 500 and no row for the new id exists, so
the claim's "for every request body supplying an id, email, and
displayName, the User row with that id is created or overwritten" fails at
this input. -/
theorem authSync_duplicate_email_create_fails :
    authSync db0 ⟨"attacker", "2Thumbsupgames@gmail.com", "Mallory", none⟩ =
      (db0, .serverError) ∧
    getUser db0 "attacker" = none := by
  constructor <;> rfl

/-- C2 (amended): the sync route performs no credential check — its
behaviour depends only on the body.  For any body with non-empty id, email
and displayName: if a user with that id exists, the row is overwritten
(displayName and photoURL taken from the body, `isOwner` recomputed from
the supplied email, the stored email untouched) — in particular any caller
supplying an allow-listed email obtains `isOwner = true` for an arbitrary
existing user id; if the id is new, the row is created with the supplied
data whenever no other user already holds the supplied (lower-cased)
email. -/
theorem authSync_no_credential_upsert (db : DB) (b : SyncBody)
    (hid : b.id ≠ "") (hemail : b.email ≠ "") (hname : b.displayName ≠ "") :
    (∀ u, getUser db b.id = some u →
      ∃ db2 u2, authSync db b = (db2, .ok u2) ∧
        getUser db2 b.id = some u2 ∧
        u2.id = u.id ∧
        u2.email = u.email ∧
        u2.displayName = b.displayName ∧
        u2.isOwner = isOwnerEmail b.email) ∧
    (getUser db b.id = none →
      db.users.any (fun u => u.email == lowerString b.email) = false →
      ∃ db2 u2, authSync db b = (db2, .ok u2) ∧
        getUser db2 b.id = some u2 ∧
        u2.id = b.id ∧
        u2.email = lowerString b.email ∧
        u2.displayName = b.displayName ∧
        u2.isOwner = isOwnerEmail b.email) := by
  have hcond : (b.id == "" || b.email == "" || b.displayName == "") = false := by
    simp [hid, hemail, hname]
  constructor
  · intro u hu
    have hu' : db.users.find? (fun v => v.id == b.id) = some u := hu
    have hid' : u.id = b.id := by
      have := List.find?_some hu'
      simpa using this
    have hmain : authSync db b =
        ({ db with users := db.users.map (fun v => if v.id == b.id then
            applyUserUpdate u ⟨none, some b.displayName, b.photoURL.map some,
              some (isOwnerEmail b.email), none, none⟩ else v) },
         .ok (applyUserUpdate u ⟨none, some b.displayName, b.photoURL.map some,
              some (isOwnerEmail b.email), none, none⟩)) := by
      unfold authSync
      rw [hcond]
      simp only [Bool.false_eq_true, if_false]
      unfold getUser
      rw [hu']
      unfold updateUser
      rw [hu']
      rfl
    refine ⟨_, _, hmain, ?_, rfl, rfl, rfl, rfl⟩
    simp only [getUser]
    exact find_update_eq _ _ (by simp [applyUserUpdate, hid']) db.users u hu'
  · intro hnone hfresh
    have hnone' : db.users.find? (fun v => v.id == b.id) = none := hnone
    have hidany : db.users.any (fun u => u.id == b.id) = false := by
      rw [List.any_eq_false]
      intro x hx
      exact List.find?_eq_none.mp hnone' x hx
    have hmain : authSync db b =
        ({ db with users := db.users ++
            [⟨b.id, lowerString b.email, b.displayName, b.photoURL,
              isOwnerEmail b.email, false, none⟩] },
         .ok ⟨b.id, lowerString b.email, b.displayName, b.photoURL,
              isOwnerEmail b.email, false, none⟩) := by
      unfold authSync
      rw [hcond]
      simp only [Bool.false_eq_true, if_false]
      unfold getUser
      rw [hnone']
      unfold createUser
      rw [hidany, hfresh]
      rfl
    refine ⟨_, _, hmain, ?_, rfl, rfl, rfl, rfl⟩
    simp only [getUser]
    rw [List.find?_append, hnone']
    simp [List.find?_cons]

/-- C2 witness: user `bob` is not on the allow-list, but an
unauthenticated sync body naming bob's id with the owner's email flips
bob's `isOwner` to true. -/
theorem authSync_no_credential_upsert_witness :
    ∃ db2 u2,
      authSync db0 ⟨"bob", "2thumbsupgames@gmail.com", "Bob", none⟩ = (db2, .ok u2) ∧
      getUser db2 "bob" = some u2 ∧
      u2.id = bobUser.id ∧
      u2.email = bobUser.email ∧
      u2.displayName = "Bob" ∧
      u2.isOwner = isOwnerEmail "2thumbsupgames@gmail.com" := by
  have h := (authSync_no_credential_upsert db0
    ⟨"bob", "2thumbsupgames@gmail.com", "Bob", none⟩
    (by decide) (by decide) (by decide)).1 bobUser (by rfl)
  exact h

/-! ## C3 — `isOwner` recomputation on sync -/

/-- C3 counterexample: the synced user keeps the stored email but takes
`isOwner` from the *supplied* email, so after a sync supplying an
allow-listed email for user `u1` (stored email `evil@example.com`),
`u1.isOwner = true` while the allow-list membership of `u1.email` is
false — the claimed equality between `isOwner` and membership of the
stored email fails, and a non-allow-listed user retains `isOwner = true`. -/
theorem authSync_stale_email_mismatch :
    ∃ db2, authSync dbEvil ⟨"u1", "2thumbsupgames@gmail.com", "Evil", none⟩ =
        (db2, .ok { evilUser with isOwner := true }) ∧
      getUser db2 "u1" = some { evilUser with isOwner := true } ∧
      ({ evilUser with isOwner := true }).isOwner = true ∧
      isOwnerEmail ({ evilUser with isOwner := true }).email = false := by
  exact ⟨_, by rfl, by rfl, rfl, by rfl⟩

/-- C3 (amended): after any successful sync, the synced user's `isOwner`
equals membership of the email *supplied in that sync* (lower-cased) in
the fixed two-address allow-list — so a stale `true` never survives a sync
that supplies a non-allow-listed email; since sync never rewrites the
stored email column, agreement with the stored email holds only when the
supplied email matches it. -/
theorem authSync_isOwner_from_supplied_email (db : DB) (b : SyncBody)
    (db2 : DB) (u2 : User) (h : authSync db b = (db2, .ok u2)) :
    u2.isOwner = isOwnerEmail b.email := by
  unfold authSync at h
  split at h
  · cases h
  · split at h
    · split at h
      · rename_i db3 u3 hc
        unfold createUser at hc
        split at hc
        · cases hc
        · simp only [Option.some.injEq, Prod.mk.injEq] at hc
          simp only [Prod.mk.injEq, SyncResult.ok.injEq] at h
          rw [← h.2, ← hc.2]
      · cases h
    · rename_i u hu
      split at h
      · rename_i db3 u3 hupd
        unfold updateUser at hupd
        split at hupd
        · rename_i hfind
          unfold getUser at hu
          rw [hu] at hfind
          cases hfind
        · rename_i v hv
          simp only [Prod.mk.injEq, Option.some.injEq] at hupd
          simp only [Prod.mk.injEq, SyncResult.ok.injEq] at h
          rw [← h.2, ← hupd.2]
          simp [applyUserUpdate]
      · rename_i db3 hupd
        unfold updateUser at hupd
        split at hupd
        · rename_i hfind
          unfold getUser at hu
          rw [hu] at hfind
          cases hfind
        · simp at hupd

/-- C3 witness: a concrete successful sync for which the amended theorem
pins `isOwner` to the supplied email's allow-list membership. -/
theorem authSync_isOwner_from_supplied_email_witness :
    ({ evilUser with isOwner := true } : User).isOwner =
      isOwnerEmail "2thumbsupgames@gmail.com" := by
  exact authSync_isOwner_from_supplied_email dbEvil
    ⟨"u1", "2thumbsupgames@gmail.com", "Evil", none⟩ _ _ rfl

/-! ## C4 — admin-post authorization gate -/

/-- C4 (confirmed): creating an admin post as an actor for whom neither
`isOwner` nor `hasAdminAccess` holds answers 403 (a status distinct from
the middleware's 401) and leaves the whole database untouched; when one of
the flags holds, the admin post row is persisted and returned. -/
theorem createPost_admin_gate (db : DB) (userId : String) (b : CreatePostBody) (who : Bool)
    (hadmin : b.isAdminPost = true) (hcontent : trimString b.content ≠ "") :
    (actorHasAdmin db userId = false →
      createPostRoute db userId b who = (db, .forbidden, [.responded 403])) ∧
    (actorHasAdmin db userId = true →
      ∃ post, (createPostRoute db userId b who).2.1 = .ok post ∧
        (createPostRoute db userId b who).1.posts = db.posts ++ [post] ∧
        post ∈ (createPostRoute db userId b who).1.posts ∧
        post.isAdminPost = true ∧
        post.authorId = userId ∧
        post.content = trimString b.content) := by
  have hc : (trimString b.content == "") = false := by simp [hcontent]
  constructor
  · intro hfalse
    unfold createPostRoute
    rw [hc]
    simp only [Bool.false_eq_true, if_false]
    rw [hadmin, hfalse]
    rfl
  · intro htrue
    have hex : ∃ u, getUser db userId = some u := by
      unfold actorHasAdmin at htrue
      split at htrue
      · exact ⟨_, by assumption⟩
      · cases htrue
    rcases hex with ⟨u, hu⟩
    have hany : db.users.any (fun v => v.id == userId) = true := any_of_find _ _ u hu
    have hgate : (b.isAdminPost && !(actorHasAdmin db userId)) = false := by
      rw [htrue]
      simp
    unfold createPostRoute
    rw [hc]
    simp only [Bool.false_eq_true, if_false]
    rw [hgate]
    simp only [Bool.false_eq_true, if_false]
    unfold createPost
    rw [hany]
    simp only [if_true]
    exact ⟨_, rfl, rfl, by simp, hadmin, rfl, rfl⟩

/-- Fixture: a database whose only user is the owner, with one plain post
by the owner, used by several witnesses. -/
def dbAdmin : DB := ⟨[ownerUser, bobUser], [⟨1, "hello", none, "bob", false⟩], [], [], [], [], 2, 1, 1⟩

/-- C4 witness: owner creates an admin post; bob (no flags) is rejected
with 403 and the state is unchanged. -/
theorem createPost_admin_gate_witness :
    createPostRoute dbAdmin "bob" ⟨"secret", true, none⟩ false =
      (dbAdmin, .forbidden, [.responded 403]) ∧
    ∃ post, (createPostRoute dbAdmin "owner1" ⟨"announce", true, some "Big"⟩ false).2.1 =
        .ok post ∧
      post.isAdminPost = true ∧
      post.authorId = "owner1" := by
  constructor
  · exact (createPost_admin_gate dbAdmin "bob" ⟨"secret", true, none⟩ false rfl
      (by decide)).1 rfl
  · rcases (createPost_admin_gate dbAdmin "owner1" ⟨"announce", true, some "Big"⟩ false rfl
      (by decide)).2 rfl with ⟨post, h1, _, _, h4, h5, _⟩
    exact ⟨post, h1, h4, h5⟩

/-! ## C5 — admin password set / unlock flow -/

/-- `setSetting` touches only the settings table. -/
theorem setSetting_users (db : DB) (k v : String) : (setSetting db k v).users = db.users := by
  unfold setSetting
  split <;> rfl

/-- A bcrypt digest is never the empty string (the handler's falsiness
check on the stored value therefore passes). -/
theorem bcryptHash_ne_empty (p : String) : (bcryptHash p == "") = false := by
  apply beq_eq_false_iff_ne.mpr
  intro h
  have hd := congrArg String.data h
  simp only [bcryptHash, String.data_append] at hd
  simp at hd

/-- `bcrypt.compare` accepts the hashed password. -/
theorem bcryptCompare_hash_self (p : String) : bcryptCompare p (bcryptHash p) = true := by
  simp [bcryptCompare]

/-- `bcrypt.compare` rejects every other password. -/
theorem bcryptCompare_hash_ne (p q : String) (h : q ≠ p) :
    bcryptCompare q (bcryptHash p) = false := by
  apply beq_eq_false_iff_ne.mpr
  intro heq
  have hd := congrArg String.data heq
  simp only [bcryptHash, String.data_append] at hd
  exact h (String.ext (List.append_cancel_left hd)).symm

/-- C5 (confirmed): the owner sets an admin password (at least 4
characters); any authenticated user B unlocking with a wrong non-empty
password gets 401 with the state unchanged — B's row, and with it
`hasAdminAccess = false`, is untouched; unlocking with the correct
password succeeds and sets B's `hasAdminAccess` to true, after which B's
admin-post creation succeeds. -/
theorem adminUnlock_password_flow (db : DB) (aId bId p q : String)
    (ua : User) (hua : getUser db aId = some ua) (haown : ua.isOwner = true)
    (ub : User) (hub : getUser db bId = some ub) (hbadmin : ub.hasAdminAccess = false)
    (hplen : 4 ≤ p.length) (hq : q ≠ "") (hqp : q ≠ p) :
    setPasswordRoute db aId p =
      (setSetting db "admin_password" (bcryptHash p), .success) ∧
    unlockRoute (setSetting db "admin_password" (bcryptHash p)) bId q =
      (setSetting db "admin_password" (bcryptHash p), .unauthorized) ∧
    (getUser (setSetting db "admin_password" (bcryptHash p)) bId = some ub ∧
     ub.hasAdminAccess = false) ∧
    (∃ db2, unlockRoute (setSetting db "admin_password" (bcryptHash p)) bId p =
        (db2, .success) ∧
      getUser db2 bId = some { ub with hasAdminAccess := true } ∧
      ∀ c : String, trimString c ≠ "" →
        ∃ post, (createPostRoute db2 bId ⟨c, true, none⟩ false).2.1 = .ok post ∧
          post.isAdminPost = true ∧ post.authorId = bId) := by
  have hpne : (p == "") = false := by
    apply beq_eq_false_iff_ne.mpr
    intro h
    rw [h] at hplen
    simp at hplen
  have hlt : decide (p.length < 4) = false := decide_eq_false (Nat.not_lt.mpr hplen)
  have hub1 : getUser (setSetting db "admin_password" (bcryptHash p)) bId = some ub := by
    unfold getUser
    rw [setSetting_users]
    exact hub
  have hubid : (ub.id == bId) = true := by
    have h' : db.users.find? (fun v => v.id == bId) = some ub := hub
    simpa using List.find?_some h'
  refine ⟨?_, ?_, ⟨hub1, hbadmin⟩, ?_⟩
  · unfold setPasswordRoute
    split
    · rename_i u hu'
      rw [hua] at hu'
      cases hu'
      rw [haown]
      simp only [if_true]
      rw [hpne, hlt]
      rfl
    · rename_i hu'
      rw [hua] at hu'
      cases hu'
  · unfold unlockRoute
    have hqne : (q == "") = false := by simp [hq]
    rw [hqne]
    simp only [Bool.false_eq_true, if_false]
    rw [getSetting_setSetting_self]
    split
    · rename_i heq
      cases heq
    · rename_i stored heq
      cases heq
      rw [bcryptHash_ne_empty, bcryptCompare_hash_ne p q hqp]
      rfl
  · have hfind1 : (setSetting db "admin_password" (bcryptHash p)).users.find?
        (fun v => v.id == bId) = some ub := by
      rw [setSetting_users]
      exact hub
    have hupd : updateUser (setSetting db "admin_password" (bcryptHash p)) bId
        { UserUpdate.none' with hasAdminAccess := some true } =
        ({ setSetting db "admin_password" (bcryptHash p) with
            users := (setSetting db "admin_password" (bcryptHash p)).users.map
              (fun v => if v.id == bId then { ub with hasAdminAccess := true } else v) },
         some { ub with hasAdminAccess := true }) := by
      unfold updateUser
      rw [hfind1]
      rfl
    have hunlock : unlockRoute (setSetting db "admin_password" (bcryptHash p)) bId p =
        ((updateUser (setSetting db "admin_password" (bcryptHash p)) bId
          { UserUpdate.none' with hasAdminAccess := some true }).1, .success) := by
      unfold unlockRoute
      rw [hpne]
      simp only [Bool.false_eq_true, if_false]
      rw [getSetting_setSetting_self]
      split
      · rename_i heq
        cases heq
      · rename_i stored heq
        cases heq
        rw [bcryptHash_ne_empty, bcryptCompare_hash_self]
        rfl
    have hg2 : getUser ((updateUser (setSetting db "admin_password" (bcryptHash p)) bId
        { UserUpdate.none' with hasAdminAccess := some true }).1) bId =
        some { ub with hasAdminAccess := true } := by
      rw [hupd]
      unfold getUser
      exact find_update_eq _ _ (by simpa using hubid) _ ub hfind1
    refine ⟨_, hunlock, hg2, ?_⟩
    intro c hcne
    have hcb : (trimString c == "") = false := by simp [hcne]
    have hadm2 : actorHasAdmin ((updateUser (setSetting db "admin_password" (bcryptHash p)) bId
        { UserUpdate.none' with hasAdminAccess := some true }).1) bId = true := by
      unfold actorHasAdmin
      rw [hg2]
      simp
    have hany2 : ((updateUser (setSetting db "admin_password" (bcryptHash p)) bId
        { UserUpdate.none' with hasAdminAccess := some true }).1).users.any
        (fun v => v.id == bId) = true := by
      apply any_of_find _ _ { ub with hasAdminAccess := true }
      exact hg2
    unfold createPostRoute
    rw [hcb]
    simp only [Bool.false_eq_true, if_false]
    rw [show (true && !(actorHasAdmin ((updateUser (setSetting db "admin_password"
        (bcryptHash p)) bId { UserUpdate.none' with hasAdminAccess := some true }).1) bId))
        = false by rw [hadm2]; rfl]
    simp only [Bool.false_eq_true, if_false]
    unfold createPost
    rw [hany2]
    simp only [if_true]
    exact ⟨_, rfl, rfl, rfl⟩

/-- C5 witness: the spec's scenario — owner sets "brotherhood", bob fails
with "wrong" keeping `hasAdminAccess = false`, then succeeds with
"brotherhood" and can create an admin post. -/
theorem adminUnlock_password_flow_witness :
    setPasswordRoute db0 "owner1" "brotherhood" =
      (setSetting db0 "admin_password" (bcryptHash "brotherhood"), .success) ∧
    unlockRoute (setSetting db0 "admin_password" (bcryptHash "brotherhood")) "bob" "wrong" =
      (setSetting db0 "admin_password" (bcryptHash "brotherhood"), .unauthorized) ∧
    ∃ db2, unlockRoute (setSetting db0 "admin_password" (bcryptHash "brotherhood"))
        "bob" "brotherhood" = (db2, .success) ∧
      getUser db2 "bob" = some { bobUser with hasAdminAccess := true } ∧
      ∃ post, (createPostRoute db2 "bob" ⟨"my admin post", true, none⟩ false).2.1 = .ok post ∧
        post.isAdminPost = true ∧ post.authorId = "bob" := by
  have h := adminUnlock_password_flow db0 "owner1" "bob" "brotherhood" "wrong"
    ownerUser rfl rfl bobUser rfl rfl (by decide) (by decide) (by decide)
  refine ⟨h.1, h.2.1, ?_⟩
  rcases h.2.2.2 with ⟨db2, hs, hg, hc⟩
  exact ⟨db2, hs, hg, hc "my admin post" (by decide)⟩

/-! ## C6 — like toggling -/

/-- Iterated `toggleLike` (the route `POST /api/posts/:id/like` calls the
storage toggle once per request). -/
def toggleLikeN : Nat → DB → Like → Option DB
  | 0, db, _ => some db
  | n + 1, db, l =>
    match toggleLike db l with
    | some (db2, _) => toggleLikeN n db2 l
    | none => none

/-- A `likes` row matches the composite key iff it equals it — the table
has exactly the two key columns. -/
theorem likeMatches_iff (l x : Like) : likeMatches l x = true ↔ x = l := by
  cases l with
  | mk lp lu =>
    cases x with
    | mk xp xu =>
      simp [likeMatches, Like.mk.injEq]

/-- One toggle: succeeds under the foreign keys, reports the new liked
state, flips exactly the toggled pair, and touches no other table. -/
theorem toggleLike_spec (db : DB) (l : Like)
    (hp : db.posts.any (fun p => p.id == l.postId) = true)
    (hu : db.users.any (fun v => v.id == l.userId) = true) :
    ∃ db2 b, toggleLike db l = some (db2, b) ∧
      b = !(decide (l ∈ db.likes)) ∧
      (l ∈ db2.likes ↔ b = true) ∧
      (∀ x, x ≠ l → (x ∈ db2.likes ↔ x ∈ db.likes)) ∧
      db2.posts = db.posts ∧ db2.users = db.users ∧
      (b = false → db2.likes = db.likes.filter (fun x => !(likeMatches l x))) ∧
      (b = true → db2.likes = db.likes ++ [l]) := by
  cases hfind : db.likes.find? (likeMatches l) with
  | some y =>
    have hyl : y = l := (likeMatches_iff l y).mp (List.find?_some hfind)
    have hmem : l ∈ db.likes := hyl ▸ List.mem_of_find?_eq_some hfind
    refine ⟨{ db with likes := db.likes.filter (fun x => !(likeMatches l x)) },
      false, ?_, ?_, ?_, ?_, rfl, rfl, fun _ => rfl, fun h => nomatch h⟩
    · unfold toggleLike
      rw [hfind]
    · simp [hmem]
    · constructor
      · intro hin
        have := (List.mem_filter.mp hin).2
        rw [(likeMatches_iff l l).mpr rfl] at this
        cases this
      · intro h
        cases h
    · intro x hx
      constructor
      · intro hin
        exact (List.mem_filter.mp hin).1
      · intro hin
        refine List.mem_filter.mpr ⟨hin, ?_⟩
        have : likeMatches l x = false := by
          cases hm : likeMatches l x
          · rfl
          · exact absurd ((likeMatches_iff l x).mp hm) hx
        rw [this]
        rfl
  | none =>
    have hnot : l ∉ db.likes := by
      intro hmem
      have := List.find?_eq_none.mp hfind l hmem
      exact this ((likeMatches_iff l l).mpr rfl)
    refine ⟨{ db with likes := db.likes ++ [l] },
      true, ?_, ?_, ?_, ?_, rfl, rfl, ?_, ?_⟩
    · unfold toggleLike
      rw [hfind, hp, hu]
      rfl
    · simp [hnot]
    · simp
    · intro x hx
      simp [List.mem_append, hx]
    · intro h
      simp at h
    · intro _
      rfl

/-- Iterated toggling: under the foreign keys the liked state after `n`
toggles is the initial state xor the parity of `n`. -/
theorem toggleLikeN_spec : ∀ (n : Nat) (db : DB) (l : Like),
    db.posts.any (fun p => p.id == l.postId) = true →
    db.users.any (fun v => v.id == l.userId) = true →
    ∃ dbn, toggleLikeN n db l = some dbn ∧
      decide (l ∈ dbn.likes) = xor (decide (l ∈ db.likes)) (decide (n % 2 = 1)) ∧
      dbn.posts = db.posts ∧ dbn.users = db.users := by
  intro n
  induction n with
  | zero =>
    intro db l hp hu
    exact ⟨db, rfl, by simp, rfl, rfl⟩
  | succ n ih =>
    intro db l hp hu
    rcases toggleLike_spec db l hp hu with
      ⟨db2, b, htog, hb, hmem2, _, hposts, husers, _, _⟩
    rcases ih db2 l (hposts ▸ hp) (husers ▸ hu) with ⟨dbn, hN, hpar, hpn, hun⟩
    have hstep : toggleLikeN (n + 1) db l = toggleLikeN n db2 l := by
      simp only [toggleLikeN, htog]
    have hd2 : decide (l ∈ db2.likes) = !(decide (l ∈ db.likes)) := by
      cases hm : decide (l ∈ db.likes)
      · simp only [Bool.not_false]
        rw [decide_eq_true_iff]
        rw [hmem2, hb, hm]
        rfl
      · simp only [Bool.not_true]
        rw [decide_eq_false_iff_not]
        rw [hmem2, hb, hm]
        simp
    have hmod : decide ((n + 1) % 2 = 1) = !(decide (n % 2 = 1)) := by
      rcases Nat.mod_two_eq_zero_or_one n with h | h <;>
        simp [h, Nat.add_mod]
    refine ⟨dbn, by rw [hstep, hN], ?_, by rw [hpn, hposts], by rw [hun, husers]⟩
    rw [hpar, hd2, hmod]
    cases decide (l ∈ db.likes) <;> cases decide (n % 2 = 1) <;> rfl

/-- C6 (confirmed): under the like table's foreign keys, toggling twice
restores the like-set; `toggleLike` returns true iff the pair is now
liked; from the unliked state `n` toggles leave the pair liked iff `n` is
odd; and the at-most-one-row-per-pair bound of the composite primary key
is preserved by every toggle. -/
theorem toggleLike_parity_and_uniqueness (db : DB) (l : Like)
    (hp : db.posts.any (fun p => p.id == l.postId) = true)
    (hu : db.users.any (fun v => v.id == l.userId) = true) :
    (∃ db1 b1, toggleLike db l = some (db1, b1) ∧ (b1 = true ↔ l ∈ db1.likes) ∧
      ∃ db2 b2, toggleLike db1 l = some (db2, b2) ∧
        ∀ x : Like, x ∈ db2.likes ↔ x ∈ db.likes) ∧
    (l ∉ db.likes →
      ∀ n, ∃ dbn, toggleLikeN n db l = some dbn ∧ (l ∈ dbn.likes ↔ n % 2 = 1)) ∧
    ((∀ y : Like, db.likes.count y ≤ 1) →
      ∀ db1 b1, toggleLike db l = some (db1, b1) → ∀ y, db1.likes.count y ≤ 1) := by
  refine ⟨?_, ?_, ?_⟩
  · rcases toggleLike_spec db l hp hu with
      ⟨db1, b1, htog, hb, hmem1, hoth1, hposts, husers, _, _⟩
    rcases toggleLike_spec db1 l (hposts ▸ hp) (husers ▸ hu) with
      ⟨db2, b2, htog2, hb2, hmem2, hoth2, _, _, _, _⟩
    refine ⟨db1, b1, htog, ⟨fun h => hmem1.mpr h, fun h => hmem1.mp h⟩,
      db2, b2, htog2, ?_⟩
    intro x
    by_cases hx : x = l
    · subst hx
      cases hd : decide (x ∈ db.likes) with
      | true =>
        have hl : x ∈ db.likes := of_decide_eq_true hd
        have hb1f : b1 = false := by rw [hb, hd]; rfl
        have hnot1 : x ∉ db1.likes := by
          intro hin
          rw [hmem1, hb1f] at hin
          cases hin
        have hd1 : decide (x ∈ db1.likes) = false := decide_eq_false hnot1
        have hb2t : b2 = true := by rw [hb2, hd1]; rfl
        exact ⟨fun _ => hl, fun _ => hmem2.mpr hb2t⟩
      | false =>
        have hl : x ∉ db.likes := of_decide_eq_false hd
        have hb1t : b1 = true := by rw [hb, hd]; rfl
        have h1 : x ∈ db1.likes := hmem1.mpr hb1t
        have hd1 : decide (x ∈ db1.likes) = true := decide_eq_true h1
        have hb2f : b2 = false := by rw [hb2, hd1]; rfl
        have hnot2 : x ∉ db2.likes := by
          intro hin
          rw [hmem2, hb2f] at hin
          cases hin
        exact ⟨fun hin => absurd hin hnot2, fun hin => absurd hin hl⟩
    · rw [hoth2 x hx, hoth1 x hx]
  · intro hnot n
    rcases toggleLikeN_spec n db l hp hu with ⟨dbn, hN, hpar, _, _⟩
    refine ⟨dbn, hN, ?_⟩
    rw [decide_eq_false hnot, Bool.false_xor] at hpar
    constructor
    · intro h
      exact of_decide_eq_true (by rw [← hpar]; exact decide_eq_true h)
    · intro h
      exact of_decide_eq_true (by rw [hpar]; exact decide_eq_true h)
  · intro hcount db1 b1 htog y
    rcases toggleLike_spec db l hp hu with
      ⟨db1', b1', htog', hb', _, _, _, _, hfilter, happend⟩
    rw [htog] at htog'
    injection htog' with h1
    injection h1 with hdb hb1
    subst hdb
    subst hb1
    cases hbv : b1 with
    | false =>
      rw [hfilter hbv]
      calc (db.likes.filter (fun x => !(likeMatches l x))).count y
          ≤ db.likes.count y := List.Sublist.count_le (List.filter_sublist _) y
        _ ≤ 1 := hcount y
    | true =>
      rw [happend hbv, List.count_append]
      by_cases hy : y = l
      · subst hy
        have hnotin : y ∉ db.likes := by
          intro hmem
          have hbb := hb'
          rw [hbv, decide_eq_true hmem] at hbb
          cases hbb
        rw [List.count_eq_zero.mpr hnotin]
        simp [List.count_singleton]
      · have h0 : List.count y [l] = 0 := by
          rw [List.count_eq_zero]
          simp [hy]
        rw [h0]
        simpa using hcount y

/-- C6 witness: on the concrete fixture (post 1, user bob, no likes yet),
three toggles leave the pair liked — 3 is odd. -/
theorem toggleLike_parity_and_uniqueness_witness :
    ∃ dbn, toggleLikeN 3 dbAdmin ⟨1, "bob"⟩ = some dbn ∧
      ((⟨1, "bob"⟩ : Like) ∈ dbn.likes ↔ 3 % 2 = 1) :=
  (toggleLike_parity_and_uniqueness dbAdmin ⟨1, "bob"⟩ rfl rfl).2.1 (by decide) 3

/-! ## C7 — cascade on post deletion, locality of comment deletion -/

/-- C7 (confirmed): deleting a post removes exactly that post together
with every comment and like referencing it (the schema's
`onDelete: cascade`) and touches nothing else; deleting a comment removes
exactly the comments with that id, leaving posts, likes and users
untouched. -/
theorem deletePost_cascade_deleteComment_local (db : DB) (pid cid : Nat) :
    ((deletePost db pid).users = db.users ∧
     (deletePost db pid).chatMessages = db.chatMessages ∧
     (∀ p : Post, p ∈ (deletePost db pid).posts ↔ (p ∈ db.posts ∧ p.id ≠ pid)) ∧
     (∀ c : Comment, c ∈ (deletePost db pid).comments ↔ (c ∈ db.comments ∧ c.postId ≠ pid)) ∧
     (∀ l : Like, l ∈ (deletePost db pid).likes ↔ (l ∈ db.likes ∧ l.postId ≠ pid))) ∧
    ((deleteComment db cid).posts = db.posts ∧
     (deleteComment db cid).likes = db.likes ∧
     (deleteComment db cid).users = db.users ∧
     (∀ c : Comment, c ∈ (deleteComment db cid).comments ↔ (c ∈ db.comments ∧ c.id ≠ cid))) := by
  refine ⟨⟨rfl, rfl, ?_, ?_, ?_⟩, rfl, rfl, rfl, ?_⟩
  · intro p
    simp [deletePost, List.mem_filter]
  · intro c
    simp [deletePost, List.mem_filter]
  · intro l
    simp [deletePost, List.mem_filter]
  · intro c
    simp [deleteComment, List.mem_filter]

/-- Fixture for the deletion witness: two posts, one comment and one like
on each. -/
def dbDel : DB :=
  ⟨[bobUser],
   [⟨1, "p1", none, "bob", false⟩, ⟨2, "p2", none, "bob", false⟩],
   [⟨1, "c1", 1, "bob"⟩, ⟨2, "c2", 2, "bob"⟩],
   [⟨1, "bob"⟩, ⟨2, "bob"⟩], [], [], 3, 3, 1⟩

/-- C7 witness: deleting post 1 from the fixture keeps the comment and
like of post 2 and drops those of post 1; deleting comment 1 keeps every
like. -/
theorem deletePost_cascade_deleteComment_local_witness :
    ((⟨2, "c2", 2, "bob"⟩ : Comment) ∈ (deletePost dbDel 1).comments ∧
      ¬((⟨1, "c1", 1, "bob"⟩ : Comment) ∈ (deletePost dbDel 1).comments)) ∧
    (deleteComment dbDel 1).likes = dbDel.likes := by
  refine ⟨⟨?_, ?_⟩, ?_⟩
  · exact ((deletePost_cascade_deleteComment_local dbDel 1 1).1.2.2.2.1
      ⟨2, "c2", 2, "bob"⟩).mpr ⟨by decide, by decide⟩
  · intro h
    have := ((deletePost_cascade_deleteComment_local dbDel 1 1).1.2.2.2.1
      ⟨1, "c1", 1, "bob"⟩).mp h
    exact this.2 rfl
  · exact (deletePost_cascade_deleteComment_local dbDel 1 1).2.2.1

/-! ## C8 — broadcast fan-out -/

/-- Unfolding of `broadcastData` on a cons cell. -/
theorem broadcastData_cons (a : Client) (t : List Client) (data : String) :
    broadcastData (a :: t) data =
      if a.readyState == .OPEN then
        ⟨a.connId, data, !a.sendFails⟩ :: broadcastData t data
      else broadcastData t data := rfl

/-- `broadcastData` distributes over registry concatenation. -/
theorem broadcastData_append (l1 l2 : List Client) (data : String) :
    broadcastData (l1 ++ l2) data = broadcastData l1 data ++ broadcastData l2 data := by
  induction l1 with
  | nil => rfl
  | cons a t ih =>
    cases h : (a.readyState == ReadyState.OPEN) <;>
      simp [broadcastData_cons, h, ih]

/-- Every delivery originates from a registry entry with the same
connection id. -/
theorem broadcastData_src (clients : List Client) (data : String) :
    ∀ d ∈ broadcastData clients data, ∃ c ∈ clients, d.connId = c.connId := by
  induction clients with
  | nil => intro d hd; cases hd
  | cons a t ih =>
    intro d hd
    rw [broadcastData_cons] at hd
    by_cases h : (a.readyState == ReadyState.OPEN) = true
    · rw [if_pos h] at hd
      rcases List.mem_cons.mp hd with h1 | h1
      · exact ⟨a, List.mem_cons_self a t, by rw [h1]⟩
      · rcases ih d h1 with ⟨c, hc, hcd⟩
        exact ⟨c, List.mem_cons_of_mem a hc, hcd⟩
    · rw [if_neg h] at hd
      rcases ih d hd with ⟨c, hc, hcd⟩
      exact ⟨c, List.mem_cons_of_mem a hc, hcd⟩

/-- C8 (confirmed): `broadcast` hands every OPEN registry entry the single
serialization of the event, independently of its authentication state
(the associated `userId` plays no role); an entry removed by the close
handler receives nothing; and flipping the send outcome of one connection
leaves the deliveries of every other connection unchanged (and `broadcast`
is total — no send outcome raises to the caller). -/
theorem broadcast_delivery_contract (clients : List Client) (m : ChatMessage) :
    (∀ c ∈ clients, c.readyState = .OPEN →
      (⟨c.connId, serializeChatEvent m, !c.sendFails⟩ : Delivery) ∈ broadcast clients m) ∧
    (∀ d ∈ broadcast clients m, d.data = serializeChatEvent m) ∧
    (∀ cid uid, broadcast (authenticateClient clients cid uid) m = broadcast clients m) ∧
    (∀ cid, ∀ d ∈ broadcast (onClose clients cid) m, d.connId ≠ cid) ∧
    (∀ pre c post b, clients = pre ++ c :: post →
      (broadcast (pre ++ { c with sendFails := b } :: post) m).filter
          (fun d => !(d.connId == c.connId)) =
        (broadcast clients m).filter (fun d => !(d.connId == c.connId))) := by
  refine ⟨?_, ?_, ?_, ?_, ?_⟩
  · intro c hc hopen
    unfold broadcast
    induction clients with
    | nil => cases hc
    | cons a t ih =>
      rw [broadcastData_cons]
      rcases List.mem_cons.mp hc with h1 | h1
      · subst h1
        rw [hopen]
        simp
      · by_cases h : (a.readyState == ReadyState.OPEN) = true
        · rw [if_pos h]
          exact List.mem_cons_of_mem _ (ih h1)
        · rw [if_neg h]
          exact ih h1
  · intro d hd
    unfold broadcast at hd
    induction clients with
    | nil => cases hd
    | cons a t ih =>
      rw [broadcastData_cons] at hd
      by_cases h : (a.readyState == ReadyState.OPEN) = true
      · rw [if_pos h] at hd
        rcases List.mem_cons.mp hd with h1 | h1
        · rw [h1]
        · exact ih h1
      · rw [if_neg h] at hd
        exact ih hd
  · intro cid uid
    unfold broadcast
    induction clients with
    | nil => rfl
    | cons a t ih =>
      unfold authenticateClient
      unfold authenticateClient at ih
      rw [List.map_cons]
      by_cases hc : (a.connId == cid) = true
      · rw [if_pos hc]
        rw [broadcastData_cons, broadcastData_cons]
        cases h : (a.readyState == ReadyState.OPEN)
        · simp only [h, Bool.false_eq_true, if_false]
          exact ih
        · simp only [h, if_true]
          rw [ih]
      · rw [if_neg hc]
        rw [broadcastData_cons, broadcastData_cons]
        cases h : (a.readyState == ReadyState.OPEN)
        · simp only [h, Bool.false_eq_true, if_false]
          exact ih
        · simp only [h, if_true]
          rw [ih]
  · intro cid d hd
    unfold broadcast at hd
    rcases broadcastData_src _ _ d hd with ⟨c, hc, hcd⟩
    unfold onClose at hc
    have := (List.mem_filter.mp hc).2
    intro hEq
    rw [hcd] at hEq
    rw [hEq] at this
    simp at this
  · intro pre c post b hsplit
    subst hsplit
    unfold broadcast
    rw [broadcastData_append, broadcastData_append]
    rw [broadcastData_cons, broadcastData_cons]
    cases h : (c.readyState == ReadyState.OPEN)
    · simp only [h, Bool.false_eq_true, if_false]
    · simp only [h, if_true]
      rw [List.filter_append, List.filter_append]
      rw [List.filter_cons, List.filter_cons]
      simp

/-- Registry fixture: an unauthenticated open socket, an authenticated
one whose send fails, and a closing one. -/
def clientsFix : List Client :=
  [⟨1, "", .OPEN, false⟩, ⟨2, "alice", .OPEN, true⟩, ⟨3, "bob", .CLOSING, false⟩]

/-- C8 witness: on the fixture registry, the unauthenticated open socket
receives the serialized event, and re-labelling identities does not change
the deliveries. -/
theorem broadcast_delivery_contract_witness :
    (⟨1, serializeChatEvent ⟨1, "hi", "bob"⟩, true⟩ : Delivery) ∈
      broadcast clientsFix ⟨1, "hi", "bob"⟩ ∧
    broadcast (authenticateClient clientsFix 1 "carol") ⟨1, "hi", "bob"⟩ =
      broadcast clientsFix ⟨1, "hi", "bob"⟩ := by
  constructor
  · exact (broadcast_delivery_contract clientsFix ⟨1, "hi", "bob"⟩).1
      ⟨1, "", .OPEN, false⟩ (by decide) rfl
  · exact (broadcast_delivery_contract clientsFix ⟨1, "hi", "bob"⟩).2.2.1 1 "carol"

/-! ## C9 — webhook relay vs. client response -/

def isRespondedEffect : Effect → Bool
  | .responded _ => true
  | _ => false

def isWebhookAttemptEffect : Effect → Bool
  | .webhookAttempt _ _ => true
  | _ => false

/-- Whether a completed webhook attempt precedes the first response in a
handler trace — i.e. whether the client-facing response waited on webhook
delivery. -/
def webhookCompletedBeforeResponse (tr : List Effect) : Bool :=
  (tr.takeWhile (fun e => !(isRespondedEffect e))).any isWebhookAttemptEffect

/-- Fixture: bob's database with a configured chat webhook. -/
def dbChat : DB :=
  ⟨[ownerUser, bobUser], [], [], [], [],
   [⟨"discord_chat_webhook", "https://discord.example/wh"⟩], 1, 1, 1⟩

/-- C9 counterexample: with a chat webhook configured and the delivery
failing, the message is stored and the request succeeds, but the source
`await`s `sendDiscordWebhook` before `res.json`: the completed webhook
attempt precedes the response in the trace, so "the client-facing
response does not wait on webhook delivery" is false at this input. -/
theorem chatRoute_response_awaits_webhook :
    (chatRoute dbChat "bob" ⟨"hi"⟩ false).2.1 = .ok ⟨1, "hi", "bob"⟩ ∧
    Effect.webhookAttempt "https://discord.example/wh" false ∈
      (chatRoute dbChat "bob" ⟨"hi"⟩ false).2.2 ∧
    webhookCompletedBeforeResponse (chatRoute dbChat "bob" ⟨"hi"⟩ false).2.2 = true := by
  refine ⟨rfl, ?_, rfl⟩
  decide

/-- A successful chat-message insert contains the returned row. -/
theorem createChatMessage_mem (db : DB) (ins : InsertChatMessage) (db2 : DB)
    (m : ChatMessage) (h : createChatMessage db ins = some (db2, m)) :
    m ∈ db2.chatMessages := by
  unfold createChatMessage at h
  split at h
  · injection h with h1
    injection h1 with hdb hrow
    subst hdb
    subst hrow
    simp
  · cases h

/-- A successful post insert contains the returned row. -/
theorem createPost_mem (db : DB) (ins : InsertPost) (db2 : DB)
    (post : Post) (h : createPost db ins = some (db2, post)) :
    post ∈ db2.posts := by
  unfold createPost at h
  split at h
  · injection h with h1
    injection h1 with hdb hrow
    subst hdb
    subst hrow
    simp
  · cases h

/-- C9 (amended): for the chat and post mutations the webhook delivery
outcome never influences the stored state, the response value, the
broadcast, or the 200 response — a failure is swallowed, never rolls
back the mutation, and the stored message is still broadcast; however the
response is emitted only after the awaited webhook attempt completes
(see the counterexample), not concurrently with it. -/
theorem webhook_failure_swallowed (db : DB) (uid : String) (cb : ChatBody)
    (pb : CreatePostBody) (o o2 : Bool) :
    ((chatRoute db uid cb o).1 = (chatRoute db uid cb o2).1 ∧
     (chatRoute db uid cb o).2.1 = (chatRoute db uid cb o2).2.1 ∧
     (∀ m, (chatRoute db uid cb o).2.1 = .ok m →
        m ∈ (chatRoute db uid cb o).1.chatMessages ∧
        Effect.broadcasted (serializeChatEvent m) ∈ (chatRoute db uid cb o).2.2 ∧
        Effect.responded 200 ∈ (chatRoute db uid cb o).2.2)) ∧
    ((createPostRoute db uid pb o).1 = (createPostRoute db uid pb o2).1 ∧
     (createPostRoute db uid pb o).2.1 = (createPostRoute db uid pb o2).2.1 ∧
     (∀ p, (createPostRoute db uid pb o).2.1 = .ok p →
        p ∈ (createPostRoute db uid pb o).1.posts ∧
        Effect.responded 200 ∈ (createPostRoute db uid pb o).2.2)) := by
  constructor
  · unfold chatRoute
    cases hcc : (trimString cb.content == "") with
    | true =>
      simp [hcc]
    | false =>
      simp only [hcc, Bool.false_eq_true, if_false]
      cases hm : createChatMessage db ⟨trimString cb.content, uid⟩ with
      | none => exact ⟨rfl, rfl, fun m hm' => nomatch hm'⟩
      | some pr =>
        obtain ⟨db2, msg⟩ := pr
        refine ⟨rfl, rfl, ?_⟩
        intro m hm'
        injection hm' with hmsg
        subst hmsg
        refine ⟨?_, ?_, ?_⟩
        · exact createChatMessage_mem db _ db2 msg hm
        · simp [List.mem_append]
        · simp [List.mem_append]
  · unfold createPostRoute
    cases hcc : (trimString pb.content == "") with
    | true =>
      simp [hcc]
    | false =>
      simp only [hcc, Bool.false_eq_true, if_false]
      cases hg : (pb.isAdminPost && !(actorHasAdmin db uid)) with
      | true =>
        simp [hg]
      | false =>
        simp only [hg, Bool.false_eq_true, if_false]
        cases hp : createPost db ⟨trimString pb.content,
            (if pb.isAdminPost && truthy pb.title then some (trimString (pb.title.getD ""))
             else none), uid, pb.isAdminPost⟩ with
        | none => exact ⟨rfl, rfl, fun p hp' => nomatch hp'⟩
        | some pr =>
          obtain ⟨db2, post⟩ := pr
          refine ⟨rfl, rfl, ?_⟩
          intro p hp'
          injection hp' with hpost
          subst hpost
          refine ⟨?_, ?_⟩
          · exact createPost_mem db _ db2 post hp
          · simp [List.mem_append]

/-- C9 witness: concrete instantiation — with the configured webhook
failing versus succeeding on bob's chat message, state and response
agree, and the delivered message is stored, broadcast and answered 200. -/
theorem webhook_failure_swallowed_witness :
    (chatRoute dbChat "bob" ⟨"hi"⟩ false).1 = (chatRoute dbChat "bob" ⟨"hi"⟩ true).1 ∧
    (chatRoute dbChat "bob" ⟨"hi"⟩ false).2.1 = (chatRoute dbChat "bob" ⟨"hi"⟩ true).2.1 ∧
    ((⟨1, "hi", "bob"⟩ : ChatMessage) ∈ (chatRoute dbChat "bob" ⟨"hi"⟩ false).1.chatMessages ∧
     Effect.broadcasted (serializeChatEvent ⟨1, "hi", "bob"⟩) ∈
       (chatRoute dbChat "bob" ⟨"hi"⟩ false).2.2 ∧
     Effect.responded 200 ∈ (chatRoute dbChat "bob" ⟨"hi"⟩ false).2.2) := by
  have h := (webhook_failure_swallowed dbChat "bob" ⟨"hi"⟩ ⟨"x", false, none⟩ false true).1
  exact ⟨h.1, h.2.1, h.2.2 ⟨1, "hi", "bob"⟩ rfl⟩

/-! ## C10 — role storage -/

/-- C10 counterexample: the grant-role route performs no validation of the
body's `role` string — an authorized actor can store `"banana"`, which is
outside the source's enumeration of named ranks, so the invariant "role is
either absent or one of the fixed named ranks" fails. -/
theorem grantRole_stores_unvalidated_role :
    (grantRoleRoute db0 "owner1" "bob" "banana").2 =
      .ok { bobUser with role := some "banana" } ∧
    getUser (grantRoleRoute db0 "owner1" "bob" "banana").1 "bob" =
      some { bobUser with role := some "banana" } ∧
    ¬("banana" ∈ namedRanks) := by
  exact ⟨rfl, rfl, by decide⟩

/-- C10 (amended): grant-role stores exactly the client-supplied string as
the target's role — whatever it is, with no check against the rank
enumeration — and revoke-role clears the role to absent; the
role-enumeration invariant therefore holds only if callers confine
themselves to the named ranks. -/
theorem role_grant_revoke_behaviour (db : DB) (actorId targetId role : String)
    (hadm : actorHasAdmin db actorId = true) (u : User)
    (hu : getUser db targetId = some u) :
    (∃ db2, grantRoleRoute db actorId targetId role =
        (db2, .ok { u with role := some role }) ∧
      getUser db2 targetId = some { u with role := some role }) ∧
    (∃ db2, revokeRoleRoute db actorId targetId =
        (db2, .ok { u with role := none }) ∧
      getUser db2 targetId = some { u with role := none }) := by
  have hu' : db.users.find? (fun v => v.id == targetId) = some u := hu
  have hid : (u.id == targetId) = true := by
    simpa using List.find?_some hu'
  constructor
  · have hmain : grantRoleRoute db actorId targetId role =
        ({ db with users := db.users.map (fun v =>
            if v.id == targetId then { u with role := some role } else v) },
         .ok { u with role := some role }) := by
      unfold grantRoleRoute
      rw [hadm]
      simp only [Bool.not_true, Bool.false_eq_true, if_false]
      unfold grantRole updateUser
      rw [hu']
      rfl
    refine ⟨_, hmain, ?_⟩
    simp only [getUser]
    exact find_update_eq _ _ (by simpa using hid) db.users u hu'
  · have hmain : revokeRoleRoute db actorId targetId =
        ({ db with users := db.users.map (fun v =>
            if v.id == targetId then { u with role := none } else v) },
         .ok { u with role := none }) := by
      unfold revokeRoleRoute
      rw [hadm]
      simp only [Bool.not_true, Bool.false_eq_true, if_false]
      unfold revokeRole updateUser
      rw [hu']
      rfl
    refine ⟨_, hmain, ?_⟩
    simp only [getUser]
    exact find_update_eq _ _ (by simpa using hid) db.users u hu'

/-- C10 witness: granting the top rank to bob stores exactly that string;
revoking clears it. -/
theorem role_grant_revoke_behaviour_witness :
    (∃ db2, grantRoleRoute db0 "owner1" "bob" "Supreme Leader" =
        (db2, .ok { bobUser with role := some "Supreme Leader" }) ∧
      getUser db2 "bob" = some { bobUser with role := some "Supreme Leader" }) ∧
    (∃ db2, revokeRoleRoute db0 "owner1" "bob" =
        (db2, .ok { bobUser with role := none }) ∧
      getUser db2 "bob" = some { bobUser with role := none }) :=
  role_grant_revoke_behaviour db0 "owner1" "bob" "Supreme Leader" rfl bobUser rfl

end Brotherhood
